import Mathlib

/-!
# Interactive chat client: retry wrapper and session loop

A shallow embedding of `src/main.cpp`.

* `std::string` is a list of `char` units (`CppString`); `size()` is the list length.
* The network is an oracle `net : Nat → Attempt D`: the outcome of the `n`-th use of a curl
  handle (`curl_easy_init` followed by `curl_easy_perform`), counted over the whole process.
  Every function that touches the network takes the index of its first call and reports how
  many calls it made and which observable events (transfers, sleeps, error reports) happened.
* Durations (`double` milliseconds in the source) live in an arbitrary type `D`; the code only
  stores them, copies them and adds them to a running total.
* `json.hpp` is a third-party header; the two places that use it are taken as parameters of
  the environment (`jsonContent`, `jsonDatetime`), each returning what the guarded block
  yields or the fact that it threw.
* Standard input is the list of lines still to be read; reading past the end is a failed
  `getline`.
* Text written to `cout` is not modelled; what a loop iteration did is recorded as a `Kind`.
-/

namespace ChatClient

/-- A `std::string`: the sequence of its `char` units. -/
abbrev CppString := List Char

/-! ## String primitives used by the source -/

/-- The test `s.rfind(needle, 0) == 0`: the last occurrence of `needle` that starts at or
before position 0 is at position 0, that is, `s` begins with `needle`. -/
def rfindAtZero (s needle : CppString) : Bool :=
  needle.isPrefixOf s

/-- Position of the first occurrence of `needle` in `s` at or after the positions already
skipped (`pos` of them); `none` is `string::npos`. -/
def findFrom (needle : CppString) : CppString → Nat → Option Nat
  | [], pos => if needle.isPrefixOf [] then some pos else none
  | c :: cs, pos =>
    if needle.isPrefixOf (c :: cs) then some pos else findFrom needle cs (pos + 1)

/-- The call `s.find(needle)`; `none` is `string::npos`. -/
def find (s needle : CppString) : Option Nat :=
  findFrom needle s 0

/-- The call `s.substr(pos)`: throws `std::out_of_range` (here `none`) when `pos > s.size()`,
otherwise the characters from position `pos` to the end. -/
def substr (s : CppString) (pos : Nat) : Option CppString :=
  if pos > s.length then none else some (s.drop pos)

/-! ## The network oracle and the event trace -/

/-- Outcome of one use of a curl handle. -/
inductive Attempt (D : Type) where
  /-- The call `curl_easy_init()` returned a null handle: nothing is transferred. -/
  | noHandle : Attempt D
  /-- The call `curl_easy_perform` ran: `ok` is `res == CURLE_OK`, `body` is what
  `WriteCallback` appended to `response`, `dur` is the measured `end - start`. -/
  | performed (ok : Bool) (body : CppString) (dur : D) : Attempt D

/-- Observable actions of the program, in the order they happen. -/
inductive Event where
  /-- One `curl_easy_perform` against the chat-completion endpoint. -/
  | chatPerform (userMsg apiKey : CppString)
  /-- One `this_thread::sleep_for(chrono::milliseconds(delayMs))`. -/
  | sleep (delayMs : Int)
  /-- The line `Failed after retries: ...` written to `cerr`. -/
  | failedAfterRetries
  /-- One `curl_easy_perform` against the time endpoint. -/
  | timePerform
  /-- The line `cURL error: ...` written to `cerr` by `getTimeInItaly`. -/
  | timeCurlError
  deriving DecidableEq, Repr

/-- Whether an event is a transfer to the chat-completion endpoint. -/
def Event.isChatPerform : Event → Bool
  | .chatPerform _ _ => true
  | _ => false

/-- Whether an event is a sleep. -/
def Event.isSleep : Event → Bool
  | .sleep _ => true
  | _ => false

/-- Number of chat-completion transfers in a trace. -/
def attempts (evs : List Event) : Nat :=
  evs.countP Event.isChatPerform

/-- Number of sleeps in a trace. -/
def sleeps (evs : List Event) : Nat :=
  evs.countP Event.isSleep

/-! ## `sendMessageWithRetries` -/

/-- What `sendMessageWithRetries` returns (`response`, `elapsedMs`) together with the events
it caused and the number of curl handles it asked for. -/
structure SendResult (D : Type) where
  response : CppString
  elapsedMs : D
  events : List Event
  calls : Nat

/-- The function `sendMessageWithRetries(userMsg, apiKey, retries, delayMs)`; `idx` is the
index of its first curl handle in the oracle.

`response` and `elapsedMs` start as `""` and `0`. Without a handle they are returned as they
are. With a handle the transfer is timed; on `res != CURLE_OK` the test `retries-- > 0`
decides between sleeping and recursing with `retries - 1`, and reporting the failure and
returning `("", elapsedMs)`; on success `(response, elapsedMs)` is returned. The decremented
`retries` is read only after the test succeeded, where `retries - 1 ≥ 0`. The request
(payload, headers) is a function of `userMsg` and `apiKey`, which each transfer event
records. -/
def sendMessageWithRetries {D : Type} [Zero D] (net : Nat → Attempt D) (idx : Nat)
    (userMsg apiKey : CppString) (retries : Int) (delayMs : Int) : SendResult D :=
  match net idx with
  | .noHandle => ⟨[], 0, [], 1⟩
  | .performed ok body dur =>
    if ok then
      ⟨body, dur, [Event.chatPerform userMsg apiKey], 1⟩
    else if h : retries > 0 then
      let r := sendMessageWithRetries net (idx + 1) userMsg apiKey (retries - 1) delayMs
      ⟨r.response, r.elapsedMs,
        Event.chatPerform userMsg apiKey :: Event.sleep delayMs :: r.events, r.calls + 1⟩
    else
      ⟨[], dur, [Event.chatPerform userMsg apiKey, Event.failedAfterRetries], 1⟩
termination_by retries.toNat
decreasing_by omega

/-! ## `getTimeInItaly` -/

/-- Result of the block `json::parse(response)` followed by
`j.value("datetime", "Error: Unexpected response format.")`. -/
inductive DatetimeLookup where
  /-- Parsing or the lookup threw (malformed text, not an object, value not a string). -/
  | threw
  /-- The parsed object has no `datetime` key: `value` returns its default. -/
  | absent
  /-- The parsed object has a string under `datetime`. -/
  | found (datetime : CppString)

/-- Everything outside the program that its behaviour depends on. -/
structure Env (D : Type) where
  /-- Outcome of the `n`-th use of a curl handle. -/
  net : Nat → Attempt D
  /-- The guarded block `json::parse(rawResponse)` followed by
  `j["choices"][0]["message"]["content"].get<string>()`; `none` when it throws. -/
  jsonContent : CppString → Option CppString
  /-- The guarded block of `getTimeInItaly`. -/
  jsonDatetime : CppString → DatetimeLookup

/-- What `getTimeInItaly` returns, with its events and the number of curl handles used. -/
structure TimeResult where
  reply : CppString
  events : List Event
  calls : Nat

/-- The text returned when `response` is empty. -/
def timeFetchError : CppString :=
  "Error: Could not fetch the time. Please try again later.".toList

/-- The default of `j.value("datetime", ...)`. -/
def timeFormatError : CppString :=
  "Error: Unexpected response format.".toList

/-- The text returned from the `catch (...)` of `getTimeInItaly`. -/
def timeParseError : CppString :=
  "Error: Failed to parse response from WorldTimeAPI.".toList

/-- The part of `getTimeInItaly` after the transfer: from `response` to the returned text. -/
def timeReply {D : Type} (env : Env D) (response : CppString) : CppString :=
  if response.isEmpty then timeFetchError
  else
    match env.jsonDatetime response with
    | .threw => timeParseError
    | .absent => timeFormatError
    | .found t => t

/-- The function `getTimeInItaly()`; `idx` is the index of its curl handle in the oracle.
A failed transfer is reported on `cerr` and whatever reached `response` is still used. -/
def getTimeInItaly {D : Type} (env : Env D) (idx : Nat) : TimeResult :=
  match env.net idx with
  | .noHandle => ⟨timeReply env [], [], 1⟩
  | .performed ok body _ =>
    ⟨timeReply env body,
      if ok then [Event.timePerform] else [Event.timePerform, Event.timeCurlError], 1⟩

/-! ## The session loop of `main` -/

/-- The locals of `main` that live across loop iterations. -/
structure Session (D : Type) where
  apiKey : CppString
  userName : CppString
  botName : CppString
  history : List (CppString × CppString)
  iterationCount : Int
  totalResponseTime : D

/-- The value of an `int` expression brought back into the range of a 32-bit `int`. -/
def wrapInt32 (x : Int) : Int :=
  (x + 2147483648) % 4294967296 - 2147483648

/-- The sentinel compared with `userInput`. -/
def exitCommand : CppString := "exit".toList

/-- First argument of the first `rfind`. -/
def userNameCommand : CppString := "my name is ".toList

/-- First argument of the second `rfind`. -/
def botNameCommand : CppString := "Your name is now ".toList

/-- Argument of `find`. -/
def timeTrigger : CppString := "time in Italy".toList

/-- The reply used when the guarded JSON block throws. -/
def parseFallback : CppString := "Sorry, I couldn't parse the response.".toList

/-- Default value of the parameter `retries`. -/
def defaultRetries : Int := 3

/-- Default value of the parameter `delayMs`. -/
def defaultDelayMs : Int := 500

/-- What one pass from `getline(cin, userInput)` to the next prompt did. -/
inductive Kind where
  /-- The input was empty or too long: the `do ... while` repeats. -/
  | Reprompt
  | RenameUser
  | RenameBot
  | TimeQuery
  | ChatTurn
  deriving DecidableEq, Repr

/-- Result of processing one line that `getline` delivered. -/
inductive StepResult (D : Type) where
  /-- The line was `exit`: both loops are left, `Goodbye!` is printed, `main` returns 0. -/
  | exit : StepResult D
  /-- An exception left `main`: `std::terminate` is called. -/
  | abort : StepResult D
  /-- Control is back at the prompt with session `s` after `calls` uses of a curl handle
  and the events `events`. -/
  | cont (kind : Kind) (s : Session D) (calls : Nat) (events : List Event) : StepResult D

/-- The chat turn at the end of the loop body (from the call of `sendMessageWithRetries`
to `history.emplace_back(userInput, botReply)`). The increment `iterationCount++` of an
`int` is taken back into the `int` range; statements about the counter are made below
that bound, where the increment is exact. -/
def chatTurn {D : Type} [Zero D] [Add D] (env : Env D) (idx : Nat) (s : Session D)
    (userInput : CppString) : StepResult D :=
  let r := sendMessageWithRetries env.net idx userInput s.apiKey defaultRetries defaultDelayMs
  let botReply :=
    match env.jsonContent r.response with
    | some content => content
    | none => parseFallback
  .cont .ChatTurn
    { s with
      totalResponseTime := s.totalResponseTime + r.elapsedMs
      iterationCount := wrapInt32 (s.iterationCount + 1)
      history := s.history ++ [(userInput, botReply)] }
    r.calls r.events

/-- One pass of the loops of `main` on the line `userInput` that `getline` delivered, with
session `s`; `idx` is the number of curl handles used so far. The checks are made in the
order of the source: `exit`, empty, longer than 1000, first rename command, second rename
command, time trigger, chat turn. -/
def step {D : Type} [Zero D] [Add D] (env : Env D) (idx : Nat) (s : Session D)
    (userInput : CppString) : StepResult D :=
  if userInput = exitCommand then .exit
  else if userInput.isEmpty then .cont .Reprompt s 0 []
  else if userInput.length > 1000 then .cont .Reprompt s 0 []
  else if rfindAtZero userInput userNameCommand then
    match substr userInput 11 with
    | none => .abort
    | some name => .cont .RenameUser { s with userName := name } 0 []
  else if rfindAtZero userInput botNameCommand then
    match substr userInput 18 with
    | none => .abort
    | some name => .cont .RenameBot { s with botName := name } 0 []
  else if (find userInput timeTrigger).isSome then
    let t := getTimeInItaly env idx
    .cont .TimeQuery { s with history := s.history ++ [(userInput, t.reply)] } t.calls t.events
  else chatTurn env idx s userInput

/-- The call `getline(cin, userInput)` on an empty `userInput`: the next line and the rest
of the input. At the end of the input the read fails and `userInput` stays empty. -/
def getline : List CppString → CppString × List CppString
  | [] => ([], [])
  | line :: rest => (line, rest)

/-- Where a run of `main` stands. -/
inductive RunResult (D : Type) where
  /-- The loop was left through `break`; `main` returned 0. -/
  | exited (s : Session D) (kinds : List Kind) (events : List Event) : RunResult D
  /-- The process was terminated by an uncaught exception. -/
  | aborted (kinds : List Kind) (events : List Event) : RunResult D
  /-- The program is at the prompt, about to call `getline` again. -/
  | prompting (s : Session D) (kinds : List Kind) (events : List Event) : RunResult D

/-- The loop `while (true)` of `main`, run for at most `fuel` calls of `getline`. `kinds`
and `events` accumulate what the passes made so far did. -/
def sessionLoop {D : Type} [Zero D] [Add D] (env : Env D) :
    Nat → List CppString → Nat → Session D → List Kind → List Event → RunResult D
  | 0, _, _, s, kinds, events => .prompting s kinds events
  | fuel + 1, stdin, idx, s, kinds, events =>
    match step env idx s (getline stdin).1 with
    | .exit => .exited s kinds events
    | .abort => .aborted kinds events
    | .cont kind s1 calls evs =>
      sessionLoop env fuel (getline stdin).2 (idx + calls) s1 (kinds ++ [kind]) (events ++ evs)

/-- The session with which the loop is entered, given the key read from the first line. -/
def initialSession (D : Type) [Zero D] (apiKey : CppString) : Session D :=
  { apiKey := apiKey
    userName := "User".toList
    botName := "Assistant".toList
    history := []
    iterationCount := 0
    totalResponseTime := 0 }

/-- The function `main` on the standard input `stdin`, run for at most `fuel` calls of
`getline` inside the loop. -/
def main {D : Type} [Zero D] [Add D] (env : Env D) (fuel : Nat) (stdin : List CppString) :
    RunResult D :=
  sessionLoop env fuel (getline stdin).2 0 (initialSession D (getline stdin).1) [] []

/-! ## Shapes of traces and small helpers for the statements -/

/-- The events of `k` failed attempts that were each followed by a retry: a transfer, then a
sleep of `delayMs`, `k` times. -/
def failedRounds (userMsg apiKey : CppString) (delayMs : Int) : Nat → List Event
  | 0 => []
  | k + 1 =>
    Event.chatPerform userMsg apiKey :: Event.sleep delayMs ::
      failedRounds userMsg apiKey delayMs k

/-- A transfer was made and failed (`res != CURLE_OK`). -/
def Attempt.failed {D : Type} : Attempt D → Bool
  | .performed false _ _ => true
  | _ => false

/-- A handle was obtained, so a transfer was made. -/
def Attempt.wasPerformed {D : Type} : Attempt D → Bool
  | .performed _ _ _ => true
  | .noHandle => false

/-! ## Concrete inputs used in the examples -/

/-- A network on which every transfer is made and fails after 7 time units. -/
def alwaysFailing : Nat → Attempt Nat :=
  fun _ => .performed false [] 7

/-- The body of the retry scenario. -/
def hiThereBody : CppString :=
  "\x7b\"choices\":[\x7b\"message\":\x7b\"content\":\"hi there\"\x7d\x7d]\x7d".toList

/-- A network whose first two transfers fail (after 40 and 41 time units) and whose later
transfers succeed with `hiThereBody` after 9 time units. -/
def failTwiceThenOk : Nat → Attempt Nat :=
  fun i => if i < 2 then .performed false [] (40 + i) else .performed true hiThereBody 9

/-- A network whose first transfer fails after 40 time units and on which no later call
obtains a curl handle. -/
def failThenNoHandle : Nat → Attempt Nat :=
  fun i => if i = 0 then .performed false [] 40 else .noHandle

/-- An environment over `failTwiceThenOk` whose chat extractor knows the body of the
scenario and whose time extractor never finds a `datetime` key. -/
def sampleEnv : Env Nat :=
  { net := failTwiceThenOk
    jsonContent := fun body => if body = hiThereBody then some "hi there".toList else none
    jsonDatetime := fun _ => .absent }

/-- The session right after the key `key` was read. -/
def sampleSession : Session Nat :=
  initialSession Nat "key".toList

/-- Standard input: the key, a time query, a chat message, then the end of the input. -/
def timeThenChat : List CppString :=
  ["key".toList, "time in Italy".toList, "hello".toList]

/-! ## Reading off a run -/

/-- The session a run stands in, when the process was not terminated. -/
def RunResult.session? {D : Type} : RunResult D → Option (Session D)
  | .exited s _ _ => some s
  | .aborted _ _ => none
  | .prompting s _ _ => some s

/-- The kinds of the passes a run made, oldest first. -/
def RunResult.kinds {D : Type} : RunResult D → List Kind
  | .exited _ kinds _ => kinds
  | .aborted kinds _ => kinds
  | .prompting _ kinds _ => kinds

/-- The relation between the two counters of a session and the kinds of the passes made so
far: the transcript has one entry per time query and per chat turn, and `iterationCount`
is the number of chat turns as long as that number fits an `int`. -/
def CountersAgree {D : Type} (s : Session D) (kinds : List Kind) : Prop :=
  s.history.length = kinds.count .TimeQuery + kinds.count .ChatTurn ∧
  (kinds.count .ChatTurn < 2147483648 → s.iterationCount = kinds.count .ChatTurn)

/-! ## Lemmas on `sendMessageWithRetries` -/

section Send

variable {D : Type} [Zero D]

lemma send_noHandle (net : Nat → Attempt D) (idx : Nat) (userMsg apiKey : CppString)
    (retries delayMs : Int) (h : net idx = .noHandle) :
    sendMessageWithRetries net idx userMsg apiKey retries delayMs = ⟨[], 0, [], 1⟩ := by
  rw [sendMessageWithRetries]
  simp [h]

lemma send_ok (net : Nat → Attempt D) (idx : Nat) (userMsg apiKey : CppString)
    (retries delayMs : Int) (body : CppString) (dur : D)
    (h : net idx = .performed true body dur) :
    sendMessageWithRetries net idx userMsg apiKey retries delayMs
      = ⟨body, dur, [Event.chatPerform userMsg apiKey], 1⟩ := by
  rw [sendMessageWithRetries]
  simp [h]

lemma send_retry (net : Nat → Attempt D) (idx : Nat) (userMsg apiKey : CppString)
    (retries delayMs : Int) (body : CppString) (dur : D)
    (h : net idx = .performed false body dur) (hr : retries > 0) :
    sendMessageWithRetries net idx userMsg apiKey retries delayMs
      = ⟨(sendMessageWithRetries net (idx + 1) userMsg apiKey (retries - 1) delayMs).response,
         (sendMessageWithRetries net (idx + 1) userMsg apiKey (retries - 1) delayMs).elapsedMs,
         Event.chatPerform userMsg apiKey :: Event.sleep delayMs ::
           (sendMessageWithRetries net (idx + 1) userMsg apiKey (retries - 1) delayMs).events,
         (sendMessageWithRetries net (idx + 1) userMsg apiKey (retries - 1) delayMs).calls
           + 1⟩ := by
  rw [sendMessageWithRetries]
  simp [h, hr]

lemma send_exhausted (net : Nat → Attempt D) (idx : Nat) (userMsg apiKey : CppString)
    (retries delayMs : Int) (body : CppString) (dur : D)
    (h : net idx = .performed false body dur) (hr : ¬ retries > 0) :
    sendMessageWithRetries net idx userMsg apiKey retries delayMs
      = ⟨[], dur, [Event.chatPerform userMsg apiKey, Event.failedAfterRetries], 1⟩ := by
  rw [sendMessageWithRetries]
  simp [h, hr]

lemma attempts_failedRounds (userMsg apiKey : CppString) (delayMs : Int) (k : Nat)
    (tail : List Event) :
    attempts (failedRounds userMsg apiKey delayMs k ++ tail) = k + attempts tail := by
  induction k with
  | zero => simp [failedRounds]
  | succ k ih =>
    simp only [attempts] at ih
    simp [failedRounds, attempts, Event.isChatPerform, List.countP_cons, ih]
    omega

lemma sleeps_failedRounds (userMsg apiKey : CppString) (delayMs : Int) (k : Nat)
    (tail : List Event) :
    sleeps (failedRounds userMsg apiKey delayMs k ++ tail) = k + sleeps tail := by
  induction k with
  | zero => simp [failedRounds]
  | succ k ih =>
    simp only [sleeps] at ih
    simp [failedRounds, sleeps, Event.isSleep, List.countP_cons, ih]
    omega

lemma failed_iff {a : Attempt D} :
    a.failed = true ↔ ∃ body dur, a = .performed false body dur := by
  cases a with
  | noHandle => simp [Attempt.failed]
  | performed ok body dur => cases ok <;> simp [Attempt.failed]

/-- The trace and result when the first `k` attempts fail and the budget allows `k`
retries: `k` failed rounds, then whatever the call with the remaining budget does. -/
lemma send_after_failures (net : Nat → Attempt D) (userMsg apiKey : CppString)
    (delayMs : Int) (k : Nat) :
    ∀ (idx : Nat) (retries : Int), (k : Int) ≤ retries →
      (∀ i, i < k → (net (idx + i)).failed = true) →
      sendMessageWithRetries net idx userMsg apiKey retries delayMs
        = ⟨(sendMessageWithRetries net (idx + k) userMsg apiKey (retries - k) delayMs).response,
           (sendMessageWithRetries net (idx + k) userMsg apiKey (retries - k) delayMs).elapsedMs,
           failedRounds userMsg apiKey delayMs k ++
             (sendMessageWithRetries net (idx + k) userMsg apiKey (retries - k) delayMs).events,
           (sendMessageWithRetries net (idx + k) userMsg apiKey (retries - k) delayMs).calls
             + k⟩ := by
  induction k with
  | zero => intro idx retries _ _; simp [failedRounds]
  | succ k ih =>
    intro idx retries hk hfail
    obtain ⟨body, dur, h0⟩ := failed_iff.mp (hfail 0 (Nat.succ_pos k))
    have hr : retries > 0 := by push_cast at hk; omega
    rw [send_retry net idx userMsg apiKey retries delayMs body dur (by simpa using h0) hr]
    have hk2 : (k : Int) ≤ retries - 1 := by push_cast at hk; omega
    have hfail2 : ∀ i, i < k → (net (idx + 1 + i)).failed = true := by
      intro i hi
      have := hfail (i + 1) (by omega)
      rwa [show idx + 1 + i = idx + (i + 1) by omega]
    rw [ih (idx + 1) (retries - 1) hk2 hfail2]
    have e1 : idx + 1 + k = idx + (k + 1) := by omega
    have e2 : retries - 1 - (k : Int) = retries - ((k + 1 : Nat) : Int) := by
      push_cast; omega
    rw [e1, e2]
    simp [failedRounds, Nat.add_assoc]

/-- The result never depends on what the sleeps do: changing `delayMs` changes neither the
returned pair nor the number of calls. -/
lemma send_delay_irrelevant (net : Nat → Attempt D) (userMsg apiKey : CppString)
    (d1 d2 : Int) :
    ∀ (n : Nat) (retries : Int) (idx : Nat), retries.toNat = n →
      (sendMessageWithRetries net idx userMsg apiKey retries d1).elapsedMs
        = (sendMessageWithRetries net idx userMsg apiKey retries d2).elapsedMs := by
  intro n
  induction n with
  | zero =>
    intro retries idx hn
    have hr : ¬ retries > 0 := by omega
    cases h : net idx with
    | noHandle => rw [send_noHandle _ _ _ _ _ _ h, send_noHandle _ _ _ _ _ _ h]
    | performed ok body dur =>
      cases ok with
      | true => rw [send_ok _ _ _ _ _ _ _ _ h, send_ok _ _ _ _ _ _ _ _ h]
      | false => rw [send_exhausted _ _ _ _ _ _ _ _ h hr, send_exhausted _ _ _ _ _ _ _ _ h hr]
  | succ n ih =>
    intro retries idx hn
    have hr : retries > 0 := by omega
    cases h : net idx with
    | noHandle => rw [send_noHandle _ _ _ _ _ _ h, send_noHandle _ _ _ _ _ _ h]
    | performed ok body dur =>
      cases ok with
      | true => rw [send_ok _ _ _ _ _ _ _ _ h, send_ok _ _ _ _ _ _ _ _ h]
      | false =>
        rw [send_retry _ _ _ _ _ _ _ _ h hr, send_retry _ _ _ _ _ _ _ _ h hr]
        exact ih (retries - 1) (idx + 1) (by omega)

/-- The lemma `send_after_failures` with the budget condition stated on `retries.toNat`,
which also covers a negative `retries` (then `k = 0`). -/
lemma send_after_failures_toNat (net : Nat → Attempt D) (userMsg apiKey : CppString)
    (delayMs : Int) (k : Nat) (idx : Nat) (retries : Int) (hk : k ≤ retries.toNat)
    (hfail : ∀ i, i < k → (net (idx + i)).failed = true) :
    sendMessageWithRetries net idx userMsg apiKey retries delayMs
      = ⟨(sendMessageWithRetries net (idx + k) userMsg apiKey (retries - k) delayMs).response,
         (sendMessageWithRetries net (idx + k) userMsg apiKey (retries - k) delayMs).elapsedMs,
         failedRounds userMsg apiKey delayMs k ++
           (sendMessageWithRetries net (idx + k) userMsg apiKey (retries - k) delayMs).events,
         (sendMessageWithRetries net (idx + k) userMsg apiKey (retries - k) delayMs).calls
           + k⟩ := by
  cases k with
  | zero => simp [failedRounds]
  | succ j =>
    exact send_after_failures net userMsg apiKey delayMs (j + 1) idx retries
      (by push_cast; omega) hfail

end Send

/-! ## Claims on `sendMessageWithRetries` -/

/-- C2: with a retry budget `N ≥ 0` and `k ≤ N`, when the first `k` transfers fail and
transfer `k + 1` succeeds with body `b`, `sendMessageWithRetries` returns `b` (and that
transfer's duration) after exactly `k + 1` transfers and exactly `k` sleeps; the successful
transfer is the last event, so nothing is attempted after it. -/
theorem sendMessageWithRetries_fail_then_succeed {D : Type} [Zero D]
    (net : Nat → Attempt D) (idx : Nat) (userMsg apiKey : CppString) (N k : Nat)
    (delayMs : Int) (b : CppString) (dur : D) (hk : k ≤ N)
    (hfail : ∀ i, i < k → ∃ body d, net (idx + i) = .performed false body d)
    (hok : net (idx + k) = .performed true b dur) :
    (sendMessageWithRetries net idx userMsg apiKey (N : Int) delayMs).response = b ∧
    (sendMessageWithRetries net idx userMsg apiKey (N : Int) delayMs).elapsedMs = dur ∧
    (sendMessageWithRetries net idx userMsg apiKey (N : Int) delayMs).events
      = failedRounds userMsg apiKey delayMs k ++ [Event.chatPerform userMsg apiKey] ∧
    attempts (sendMessageWithRetries net idx userMsg apiKey (N : Int) delayMs).events
      = k + 1 ∧
    sleeps (sendMessageWithRetries net idx userMsg apiKey (N : Int) delayMs).events = k ∧
    (sendMessageWithRetries net idx userMsg apiKey (N : Int) delayMs).calls = k + 1 := by
  have hpre : ∀ i, i < k → (net (idx + i)).failed = true := fun i hi =>
    failed_iff.mpr (hfail i hi)
  have hsplit := send_after_failures net userMsg apiKey delayMs k idx (N : Int)
    (by exact_mod_cast hk) hpre
  have hend := send_ok net (idx + k) userMsg apiKey ((N : Int) - k) delayMs b dur hok
  rw [hend] at hsplit
  rw [hsplit]
  refine ⟨rfl, rfl, rfl, ?_, ?_, by simp; omega⟩
  · rw [attempts_failedRounds]
    simp [attempts, Event.isChatPerform, List.countP_cons]
  · rw [sleeps_failedRounds]
    simp [sleeps, Event.isSleep, List.countP_cons]

/-- Witness of C2: budget 3, two failures, then success with the body of the scenario. -/
theorem sendMessageWithRetries_fail_then_succeed_witness :
    (sendMessageWithRetries failTwiceThenOk 0 "hello".toList "key".toList 3 500).response
      = hiThereBody ∧
    (sendMessageWithRetries failTwiceThenOk 0 "hello".toList "key".toList 3 500).elapsedMs
      = 9 ∧
    (sendMessageWithRetries failTwiceThenOk 0 "hello".toList "key".toList 3 500).events
      = failedRounds "hello".toList "key".toList 500 2 ++
          [Event.chatPerform "hello".toList "key".toList] ∧
    attempts (sendMessageWithRetries failTwiceThenOk 0 "hello".toList "key".toList 3 500).events
      = 2 + 1 ∧
    sleeps (sendMessageWithRetries failTwiceThenOk 0 "hello".toList "key".toList 3 500).events
      = 2 ∧
    (sendMessageWithRetries failTwiceThenOk 0 "hello".toList "key".toList 3 500).calls
      = 2 + 1 :=
  sendMessageWithRetries_fail_then_succeed failTwiceThenOk 0 "hello".toList "key".toList 3 2
    500 hiThereBody 9 (by decide)
    (fun i hi => ⟨[], 40 + (0 + i), by simp [failTwiceThenOk, hi]⟩)
    (by simp [failTwiceThenOk])

/-- Counterexample to C3 as stated: with budget 3, the first transfer fails after 40 time
units and the retry obtains no curl handle; one transfer was made, its duration is 40, and
the returned time is 0. -/
theorem sendMessageWithRetries_elapsed_zero_without_handle :
    failThenNoHandle 0 = .performed false [] 40 ∧
    failThenNoHandle 1 = .noHandle ∧
    attempts
      (sendMessageWithRetries failThenNoHandle 0 "hello".toList "key".toList 3 500).events
      = 1 ∧
    (sendMessageWithRetries failThenNoHandle 0 "hello".toList "key".toList 3 500).elapsedMs
      = 0 ∧
    (sendMessageWithRetries failThenNoHandle 0 "hello".toList "key".toList 3 500).elapsedMs
      ≠ 40 := by
  rw [send_retry failThenNoHandle 0 _ _ _ _ [] 40 rfl (by decide),
    send_noHandle failThenNoHandle 1 _ _ _ _ rfl]
  exact ⟨rfl, rfl, rfl, rfl, by decide⟩

/-- C3 as amended: after `k` failed transfers within the retry budget, what call `k + 1`
does decides the returned time. When its transfer succeeds, the time is that transfer's
duration and it is the last of `k + 1` transfers. When its transfer fails and the budget is
exhausted (`k` is the budget), the time is the duration of this final failed transfer, again
the last of `k + 1`. So whenever every call obtains a curl handle the returned time is the
duration of the last transfer made, not a total over the transfers. When call `k + 1`
obtains no handle, no further transfer is made and the returned time is 0 with an empty
body. In every case the time is the same for every delay slept between the transfers. -/
theorem sendMessageWithRetries_elapsed_after_failures {D : Type} [Zero D]
    (net : Nat → Attempt D) (idx : Nat) (userMsg apiKey : CppString) (retries : Int)
    (delayMs : Int) (k : Nat) (hk : k ≤ retries.toNat)
    (hfail : ∀ i, i < k → ∃ body d, net (idx + i) = .performed false body d) :
    (∀ b d, net (idx + k) = .performed true b d →
      (sendMessageWithRetries net idx userMsg apiKey retries delayMs).elapsedMs = d ∧
      (sendMessageWithRetries net idx userMsg apiKey retries delayMs).response = b ∧
      (sendMessageWithRetries net idx userMsg apiKey retries delayMs).events
        = failedRounds userMsg apiKey delayMs k ++ [Event.chatPerform userMsg apiKey] ∧
      attempts (sendMessageWithRetries net idx userMsg apiKey retries delayMs).events
        = k + 1) ∧
    (∀ b d, net (idx + k) = .performed false b d → k = retries.toNat →
      (sendMessageWithRetries net idx userMsg apiKey retries delayMs).elapsedMs = d ∧
      (sendMessageWithRetries net idx userMsg apiKey retries delayMs).response = [] ∧
      (sendMessageWithRetries net idx userMsg apiKey retries delayMs).events
        = failedRounds userMsg apiKey delayMs k ++
            [Event.chatPerform userMsg apiKey, Event.failedAfterRetries] ∧
      attempts (sendMessageWithRetries net idx userMsg apiKey retries delayMs).events
        = k + 1) ∧
    (net (idx + k) = .noHandle →
      (sendMessageWithRetries net idx userMsg apiKey retries delayMs).elapsedMs = 0 ∧
      (sendMessageWithRetries net idx userMsg apiKey retries delayMs).response = [] ∧
      (sendMessageWithRetries net idx userMsg apiKey retries delayMs).events
        = failedRounds userMsg apiKey delayMs k ∧
      attempts (sendMessageWithRetries net idx userMsg apiKey retries delayMs).events = k) ∧
    (∀ otherDelay,
      (sendMessageWithRetries net idx userMsg apiKey retries otherDelay).elapsedMs
        = (sendMessageWithRetries net idx userMsg apiKey retries delayMs).elapsedMs) := by
  have hpre : ∀ i, i < k → (net (idx + i)).failed = true := fun i hi =>
    failed_iff.mpr (hfail i hi)
  have hsplit := send_after_failures_toNat net userMsg apiKey delayMs k idx retries hk hpre
  refine ⟨?_, ?_, ?_, fun otherDelay =>
    send_delay_irrelevant net userMsg apiKey otherDelay delayMs retries.toNat retries idx rfl⟩
  · intro b d hok
    rw [send_ok net (idx + k) userMsg apiKey (retries - k) delayMs b d hok] at hsplit
    rw [hsplit]
    refine ⟨rfl, rfl, rfl, ?_⟩
    rw [attempts_failedRounds]
    simp [attempts, Event.isChatPerform, List.countP_cons]
  · intro b d hbad hlast
    rw [send_exhausted net (idx + k) userMsg apiKey (retries - k) delayMs b d hbad
      (by omega)] at hsplit
    rw [hsplit]
    refine ⟨rfl, rfl, rfl, ?_⟩
    rw [attempts_failedRounds]
    simp [attempts, Event.isChatPerform, List.countP_cons]
  · intro hnone
    rw [send_noHandle net (idx + k) userMsg apiKey (retries - k) delayMs hnone] at hsplit
    rw [hsplit]
    refine ⟨rfl, rfl, by simp, ?_⟩
    have := attempts_failedRounds userMsg apiKey delayMs k []
    simpa [attempts] using this

/-- Witness of C3 as amended. Budget 3, transfers of 40 and 41 time units fail and the third
of 9 succeeds: the time is 9 after 3 transfers. Budget 2, every transfer fails after 7 time
units: the time is 7 after 3 transfers. Budget 3, the first transfer fails and the retry
obtains no handle: the time is 0 after 1 transfer. -/
theorem sendMessageWithRetries_elapsed_after_failures_witness :
    ((sendMessageWithRetries failTwiceThenOk 0 "hello".toList "key".toList 3 500).elapsedMs
        = 9 ∧
      (sendMessageWithRetries failTwiceThenOk 0 "hello".toList "key".toList 3 500).response
        = hiThereBody ∧
      (sendMessageWithRetries failTwiceThenOk 0 "hello".toList "key".toList 3 500).events
        = failedRounds "hello".toList "key".toList 500 2 ++
            [Event.chatPerform "hello".toList "key".toList] ∧
      attempts
          (sendMessageWithRetries failTwiceThenOk 0 "hello".toList "key".toList 3 500).events
        = 2 + 1) ∧
    ((sendMessageWithRetries alwaysFailing 0 "hello".toList "key".toList 2 500).elapsedMs
        = 7 ∧
      (sendMessageWithRetries alwaysFailing 0 "hello".toList "key".toList 2 500).response
        = [] ∧
      (sendMessageWithRetries alwaysFailing 0 "hello".toList "key".toList 2 500).events
        = failedRounds "hello".toList "key".toList 500 2 ++
            [Event.chatPerform "hello".toList "key".toList, Event.failedAfterRetries] ∧
      attempts
          (sendMessageWithRetries alwaysFailing 0 "hello".toList "key".toList 2 500).events
        = 2 + 1) ∧
    ((sendMessageWithRetries failThenNoHandle 0 "hello".toList "key".toList 3 500).elapsedMs
        = 0 ∧
      (sendMessageWithRetries failThenNoHandle 0 "hello".toList "key".toList 3 500).response
        = [] ∧
      (sendMessageWithRetries failThenNoHandle 0 "hello".toList "key".toList 3 500).events
        = failedRounds "hello".toList "key".toList 500 1 ∧
      attempts
          (sendMessageWithRetries failThenNoHandle 0 "hello".toList "key".toList 3 500).events
        = 1) :=
  ⟨(sendMessageWithRetries_elapsed_after_failures failTwiceThenOk 0 "hello".toList
      "key".toList 3 500 2 (by decide)
      (fun i hi => ⟨[], 40 + (0 + i), by simp [failTwiceThenOk, hi]⟩)).1
      hiThereBody 9 (by simp [failTwiceThenOk]),
    (sendMessageWithRetries_elapsed_after_failures alwaysFailing 0 "hello".toList
      "key".toList 2 500 2 (by decide) (fun _ _ => ⟨[], 7, rfl⟩)).2.1 [] 7 rfl (by decide),
    (sendMessageWithRetries_elapsed_after_failures failThenNoHandle 0 "hello".toList
      "key".toList 3 500 1 (by decide)
      (fun i hi => ⟨[], 40, by
        have h0 : i = 0 := by omega
        subst h0
        rfl⟩)).2.2.1 rfl⟩

/-! ## Lemmas on the session loop -/

section Session

variable {D : Type} [Zero D] [Add D]

lemma userNameCommand_chars :
    userNameCommand = ['m', 'y', ' ', 'n', 'a', 'm', 'e', ' ', 'i', 's', ' '] := by decide

lemma botNameCommand_chars :
    botNameCommand
      = ['Y', 'o', 'u', 'r', ' ', 'n', 'a', 'm', 'e', ' ', 'i', 's', ' ', 'n', 'o', 'w', ' '] := by
  decide

lemma exitCommand_chars : exitCommand = ['e', 'x', 'i', 't'] := by decide

lemma rfindAtZero_append (p x : CppString) : rfindAtZero (p ++ x) p = true := by
  simp [rfindAtZero]

lemma rfindAtZero_length (s p : CppString) (h : rfindAtZero s p = true) :
    p.length ≤ s.length := by
  simp only [rfindAtZero, List.isPrefixOf_iff_prefix] at h
  exact h.length_le

lemma findFrom_isSome_iff (needle : CppString) :
    ∀ (s : CppString) (pos : Nat),
      (findFrom needle s pos).isSome = true ↔ ∃ pre post, s = pre ++ needle ++ post := by
  intro s
  induction s with
  | nil =>
    intro pos
    cases needle with
    | nil => simp [findFrom]
    | cons c cs => simp [findFrom]
  | cons a as ih =>
    intro pos
    unfold findFrom
    by_cases hp : needle.isPrefixOf (a :: as) = true
    · simp only [hp, if_true, Option.isSome_some, true_iff]
      obtain ⟨post, hpost⟩ := List.isPrefixOf_iff_prefix.mp hp
      exact ⟨[], post, by simpa using hpost.symm⟩
    · simp only [hp, if_false, Bool.false_eq_true]
      rw [ih (pos + 1)]
      constructor
      · rintro ⟨pre, post, h⟩
        exact ⟨a :: pre, post, by simp [h]⟩
      · rintro ⟨pre, post, h⟩
        cases pre with
        | nil =>
          exfalso
          apply hp
          rw [List.isPrefixOf_iff_prefix]
          exact ⟨post, by simpa using h.symm⟩
        | cons b pre2 =>
          simp only [List.cons_append, List.cons.injEq] at h
          exact ⟨pre2, post, h.2⟩

lemma find_isSome_iff (s needle : CppString) :
    (find s needle).isSome = true ↔ ∃ pre post, s = pre ++ needle ++ post :=
  findFrom_isSome_iff needle s 0


/-- C5: for every name `X`, an input line `my name is ` followed by `X` that passes the
length check makes the pass a user rename: the user name becomes exactly `X`, no curl handle
is used and no event happens (no transport call), and the key, the assistant name, the
transcript, the turn count and the total latency are the ones of the session before. -/
theorem step_my_name_is_sets_userName (env : Env D) (idx : Nat) (s : Session D) (X : CppString)
    (hlen : (userNameCommand ++ X).length ≤ 1000) :
    step env idx s (userNameCommand ++ X)
      = .cont .RenameUser { s with userName := X } 0 [] := by
  have h1 : userNameCommand ++ X ≠ exitCommand := by
    rw [userNameCommand_chars, exitCommand_chars]; simp
  have h2 : (userNameCommand ++ X).isEmpty = false := by
    rw [userNameCommand_chars]; simp
  have h3 : ¬ (userNameCommand ++ X).length > 1000 := by omega
  have h4 : substr (userNameCommand ++ X) 11 = some X := by
    rw [userNameCommand_chars]; simp [substr]
  unfold step
  rw [if_neg h1, h2]
  simp only [Bool.false_eq_true, if_false, if_neg h3, rfindAtZero_append, if_true, h4]

/-- A pass ends the process through an uncaught exception exactly on the line that is the
second rename command alone. -/
lemma step_abort_iff (env : Env D) (idx : Nat) (s : Session D) (line : CppString) :
    step env idx s line = .abort ↔ line = botNameCommand := by
  constructor
  · intro h
    unfold step at h
    split_ifs at h with h1 h2 h3 h4 h5 h6
    · have hl := rfindAtZero_length _ _ h4
      have : userNameCommand.length = 11 := by decide
      have hs : substr line 11 = some (line.drop 11) := by
        simp only [substr]; rw [if_neg (by omega)]
      rw [hs] at h
      cases h
    · have hl := rfindAtZero_length _ _ h5
      have hlen : botNameCommand.length = 17 := by decide
      by_cases hlt : 18 > line.length
      · simp only [rfindAtZero, List.isPrefixOf_iff_prefix] at h5
        exact (h5.eq_of_length (by omega)).symm
      · have hs : substr line 18 = some (line.drop 18) := by
          simp only [substr]; rw [if_neg hlt]
        rw [hs] at h
        cases h
    · simp [chatTurn] at h
  · rintro rfl
    unfold step
    rw [if_neg (by decide), if_neg (by decide), if_neg (by decide), if_neg (by decide),
      if_pos (by decide)]
    have : substr botNameCommand 18 = none := by decide
    rw [this]


/-- C4, evaluated on the line `Your name is now Bob`: the pass is an assistant rename
without transport call or transcript entry, and the assistant name becomes `ob`, the name
typed without its first character, not `Bob`. -/
theorem step_bot_rename_drops_first_char (env : Env D) (idx : Nat) (s : Session D) :
    step env idx s "Your name is now Bob".toList
      = .cont .RenameBot { s with botName := "ob".toList } 0 [] ∧
    "ob".toList ≠ "Bob".toList := by
  refine ⟨?_, by decide⟩
  unfold step
  rw [if_neg (by decide), if_neg (by decide), if_neg (by decide), if_neg (by decide),
    if_pos (by decide)]
  have : substr "Your name is now Bob".toList 18 = some "ob".toList := by decide
  rw [this]

omit [Zero D] [Add D] in
lemma getTimeInItaly_no_chat (env : Env D) (idx : Nat) :
    attempts (getTimeInItaly env idx).events = 0 ∧ (getTimeInItaly env idx).calls = 1 := by
  unfold getTimeInItaly
  cases env.net idx with
  | noHandle => simp [attempts]
  | performed ok body dur =>
    cases ok <;> simp [attempts, Event.isChatPerform, List.countP_cons]

/-- C6 as amended: for every accepted input line (non-empty, at most 1000 characters, not
`exit`) that starts with neither rename command and contains `time in Italy` at any
position, the pass is a time query: `getTimeInItaly` is called and the chat-completion
client is not, exactly one entry (the line, the time reply) is appended to the transcript,
and the names, the turn count and the total latency are unchanged. -/
theorem step_time_query_when_no_rename (env : Env D) (idx : Nat) (s : Session D) (line : CppString)
    (hne : line ≠ []) (hlen : line.length ≤ 1000) (hexit : line ≠ exitCommand)
    (huser : rfindAtZero line userNameCommand = false)
    (hbot : rfindAtZero line botNameCommand = false)
    (htime : ∃ pre post, line = pre ++ timeTrigger ++ post) :
    step env idx s line
      = .cont .TimeQuery
          { s with history := s.history ++ [(line, (getTimeInItaly env idx).reply)] }
          (getTimeInItaly env idx).calls (getTimeInItaly env idx).events ∧
    (getTimeInItaly env idx).reply
      = timeReply env
          (match env.net idx with
            | .noHandle => []
            | .performed _ body _ => body) ∧
    attempts (getTimeInItaly env idx).events = 0 ∧
    ((env.net idx).wasPerformed = true → Event.timePerform ∈ (getTimeInItaly env idx).events) := by
  have h2 : line.isEmpty = false := by
    cases line with
    | nil => exact absurd rfl hne
    | cons a as => rfl
  have h3 : ¬ line.length > 1000 := by omega
  have h6 : (find line timeTrigger).isSome = true := (find_isSome_iff _ _).mpr htime
  refine ⟨?_, ?_, (getTimeInItaly_no_chat env idx).1, ?_⟩
  · unfold step
    rw [if_neg hexit, h2, huser, hbot, h6]
    simp only [Bool.false_eq_true, if_false, if_neg h3, if_true]
  · unfold getTimeInItaly
    cases env.net idx <;> rfl
  · unfold getTimeInItaly
    cases env.net idx with
    | noHandle => simp [Attempt.wasPerformed]
    | performed ok body dur => cases ok <;> simp

/-- An empty or too long line leaves the session as it is and goes back to the prompt; a
line of exactly 1000 characters does not. -/
lemma step_reject (env : Env D) (idx : Nat) (s : Session D) (line : CppString) :
    ((line = [] ∨ 1000 < line.length) → step env idx s line = .cont .Reprompt s 0 []) ∧
    (line.length = 1000 → ∀ s1 calls evs, step env idx s line ≠ .cont .Reprompt s1 calls evs) := by
  constructor
  · intro h
    have hexit : line ≠ exitCommand := by
      rintro rfl
      have : exitCommand.length = 4 := by decide
      rcases h with h | h
      · rw [h] at this; simp at this
      · omega
    unfold step
    rw [if_neg hexit]
    rcases h with h | h
    · subst h; rfl
    · cases line with
      | nil => rfl
      | cons a as =>
        simp only [List.isEmpty_cons, Bool.false_eq_true, if_false]
        rw [if_pos h]
  · intro h s1 calls evs
    have h2 : line.isEmpty = false := by
      cases line with
      | nil => simp at h
      | cons a as => rfl
    have h3 : ¬ line.length > 1000 := by omega
    unfold step
    rw [h2]
    simp only [Bool.false_eq_true, if_false, if_neg h3]
    split_ifs with h1 h4 h5 h6
    · simp
    · cases substr line 11 <;> simp
    · cases substr line 18 <;> simp
    · simp
    · simp [chatTurn]

/-- At the end of the input every pass is a re-prompt: whatever the fuel, the loop is still
at the prompt with the session it had. -/
lemma sessionLoop_eof (env : Env D) (fuel : Nat) :
    ∀ (idx : Nat) (s : Session D) (kinds : List Kind) (events : List Event),
      sessionLoop env fuel [] idx s kinds events
        = .prompting s (kinds ++ List.replicate fuel .Reprompt) events := by
  induction fuel with
  | zero => intro idx s kinds events; simp [sessionLoop]
  | succ n ih =>
    intro idx s kinds events
    have hstep : step env idx s [] = .cont .Reprompt s 0 [] :=
      (step_reject env idx s []).1 (Or.inl rfl)
    simp only [sessionLoop, getline, hstep]
    rw [ih]
    simp [List.replicate_succ]


/-- What one pass does to the transcript length and to the turn count. -/
lemma step_effect (env : Env D) (idx : Nat) (s s1 : Session D) (line : CppString)
    (kind : Kind) (calls : Nat) (evs : List Event)
    (h : step env idx s line = .cont kind s1 calls evs) :
    s1.history.length
      = s.history.length + [kind].count .TimeQuery + [kind].count .ChatTurn ∧
    s1.iterationCount
      = if kind = .ChatTurn then wrapInt32 (s.iterationCount + 1) else s.iterationCount := by
  unfold step at h
  split_ifs at h with h1 h2 h3 h4 h5 h6
  · cases h; simp
  · cases h; simp
  · cases hs : substr line 11 with
    | none => rw [hs] at h; cases h
    | some name => rw [hs] at h; cases h; simp
  · cases hs : substr line 18 with
    | none => rw [hs] at h; cases h
    | some name => rw [hs] at h; cases h; simp
  · cases h; simp
  · simp only [chatTurn] at h; cases h; simp

lemma wrapInt32_small (x : Int) (h0 : -2147483648 ≤ x) (h1 : x < 2147483648) :
    wrapInt32 x = x := by
  unfold wrapInt32
  omega

lemma countersAgree_step (env : Env D) (idx : Nat) (s s1 : Session D) (line : CppString)
    (kinds : List Kind) (kind : Kind) (calls : Nat) (evs : List Event)
    (hinv : CountersAgree s kinds)
    (h : step env idx s line = .cont kind s1 calls evs) :
    CountersAgree s1 (kinds ++ [kind]) := by
  obtain ⟨e1, e2⟩ := step_effect env idx s s1 line kind calls evs h
  obtain ⟨i1, i2⟩ := hinv
  refine ⟨?_, ?_⟩
  · rw [e1, i1, List.count_append, List.count_append]; omega
  · intro hlt
    rw [List.count_append] at hlt
    have hk := i2 (by omega)
    rw [e2, List.count_append]
    by_cases hc : kind = .ChatTurn
    · subst hc
      simp only [if_true]
      simp only [List.count_cons_self, List.count_nil] at hlt ⊢
      rw [hk, wrapInt32_small _ (by omega) (by omega)]
      push_cast; ring
    · rw [if_neg hc, hk]
      have : [kind].count Kind.ChatTurn = 0 := by
        simp [List.count_cons, hc]
      rw [this]; simp

lemma countersAgree_sessionLoop (env : Env D) (fuel : Nat) :
    ∀ (stdin : List CppString) (idx : Nat) (s : Session D) (kinds : List Kind)
      (events : List Event), CountersAgree s kinds →
      ∀ s1, (sessionLoop env fuel stdin idx s kinds events).session? = some s1 →
        CountersAgree s1 (sessionLoop env fuel stdin idx s kinds events).kinds := by
  induction fuel with
  | zero =>
    intro stdin idx s kinds events hinv s1 h
    simp only [sessionLoop, RunResult.session?, Option.some.injEq] at h
    subst h
    simpa [sessionLoop, RunResult.kinds] using hinv
  | succ n ih =>
    intro stdin idx s kinds events hinv s1 h
    simp only [sessionLoop] at h ⊢
    revert h
    cases hs : step env idx s (getline stdin).1 with
    | exit =>
      intro h
      simp only [RunResult.session?, Option.some.injEq] at h
      subst h
      simpa [RunResult.kinds] using hinv
    | abort =>
      intro h
      simp [RunResult.session?] at h
    | cont kind s2 calls evs =>
      intro h
      exact ih _ _ _ _ _ (countersAgree_step env idx s s2 _ kinds kind calls evs hinv hs) s1 h

/-- C7 as amended: in every session state reached from the initial state by any sequence of
input lines (in particular right after a chat turn), as long as fewer than 2^31 chat turns
were made, the turn count `iterationCount` equals the length of the transcript `history`
minus the number of time queries answered so far; it is the number of chat turns. -/
theorem turn_count_is_length_minus_time_queries (env : Env D) (fuel : Nat)
    (stdin : List CppString) (s : Session D)
    (hs : (main env fuel stdin).session? = some s)
    (hbound : (main env fuel stdin).kinds.count .ChatTurn < 2147483648) :
    s.iterationCount + ((main env fuel stdin).kinds.count .TimeQuery : Int)
      = (s.history.length : Int) ∧
    s.iterationCount = ((main env fuel stdin).kinds.count .ChatTurn : Int) := by
  have hinit : CountersAgree (initialSession D (getline stdin).1) [] := by
    simp [CountersAgree, initialSession]
  obtain ⟨h1, h2⟩ := countersAgree_sessionLoop env fuel (getline stdin).2 0
    (initialSession D (getline stdin).1) [] [] hinit s hs
  have h3 := h2 hbound
  refine ⟨?_, h3⟩
  rw [h3]
  simp only [main]
  rw [h1]
  push_cast
  ring

/-- The run of `main` on the key, a time query and a chat message, after two passes. -/
lemma main_timeThenChat :
    main sampleEnv 2 timeThenChat
      = .prompting
          { apiKey := "key".toList
            userName := "User".toList
            botName := "Assistant".toList
            history :=
              [("time in Italy".toList, timeFetchError), ("hello".toList, "hi there".toList)]
            iterationCount := 1
            totalResponseTime := 9 }
          [.TimeQuery, .ChatTurn]
          [Event.timePerform, Event.timeCurlError,
            Event.chatPerform "hello".toList "key".toList, Event.sleep 500,
            Event.chatPerform "hello".toList "key".toList] := by
  have t : step sampleEnv 0 (initialSession Nat "key".toList) "time in Italy".toList
      = .cont .TimeQuery
          { initialSession Nat "key".toList with
            history := [("time in Italy".toList, timeFetchError)] } 1
          [Event.timePerform, Event.timeCurlError] := by
    unfold step
    rw [if_neg (by decide), if_neg (by decide), if_neg (by decide), if_neg (by decide),
      if_neg (by decide), if_pos (by decide)]
    rfl
  have c0 : sendMessageWithRetries sampleEnv.net 1 "hello".toList "key".toList
      defaultRetries defaultDelayMs
      = ⟨hiThereBody, 9,
          [Event.chatPerform "hello".toList "key".toList, Event.sleep 500,
            Event.chatPerform "hello".toList "key".toList], 2⟩ := by
    rw [send_retry sampleEnv.net 1 _ _ _ _ [] 41 rfl (by decide),
      send_ok sampleEnv.net 2 _ _ _ _ hiThereBody 9 rfl]
    rfl
  have c : step sampleEnv 1
      { initialSession Nat "key".toList with
        history := [("time in Italy".toList, timeFetchError)] } "hello".toList
      = .cont .ChatTurn
          { apiKey := "key".toList
            userName := "User".toList
            botName := "Assistant".toList
            history :=
              [("time in Italy".toList, timeFetchError), ("hello".toList, "hi there".toList)]
            iterationCount := 1
            totalResponseTime := 9 } 2
          [Event.chatPerform "hello".toList "key".toList, Event.sleep 500,
            Event.chatPerform "hello".toList "key".toList] := by
    unfold step
    rw [if_neg (by decide), if_neg (by decide), if_neg (by decide), if_neg (by decide),
      if_neg (by decide), if_neg (by decide)]
    unfold chatTurn
    rw [show (initialSession Nat "key".toList).apiKey = "key".toList from rfl] at *
    simp only [c0]
    rfl
  simp only [main, sessionLoop, getline, timeThenChat, t]
  simp only [Nat.zero_add, List.nil_append, c]
  rfl

/-- C8: an input line that is empty or longer than 1000 characters, whatever its content,
sends the loop back to the prompt with the session unchanged (names, transcript, turn
count, total latency), without using a curl handle and without any event; a line of exactly
1000 characters is not rejected. -/
theorem step_rejects_empty_and_too_long (env : Env D) (idx : Nat) (s : Session D)
    (line : CppString) :
    ((line = [] ∨ 1000 < line.length) →
      step env idx s line = .cont .Reprompt s 0 [] ∧
      ∀ fuel rest kinds events,
        sessionLoop env (fuel + 1) (line :: rest) idx s kinds events
          = sessionLoop env fuel rest idx s (kinds ++ [.Reprompt]) events) ∧
    (line.length = 1000 →
      ∀ s1 calls evs, step env idx s line ≠ .cont .Reprompt s1 calls evs) := by
  refine ⟨fun h => ?_, (step_reject env idx s line).2⟩
  have hstep := (step_reject env idx s line).1 h
  refine ⟨hstep, ?_⟩
  intro fuel rest kinds events
  simp only [sessionLoop, getline, hstep, Nat.add_zero, List.append_nil]

/-- C9, evaluated at the end of the input: from any session the loop is still at the prompt
after any number of passes, each of them a re-prompt, and never reaches its exit; so does
`main` on an input that holds the key line only. -/
theorem sessionLoop_never_exits_at_end_of_input (env : Env D) (fuel : Nat) :
    (∀ (idx : Nat) (s : Session D) (kinds : List Kind) (events : List Event),
      sessionLoop env fuel [] idx s kinds events
        = .prompting s (kinds ++ List.replicate fuel .Reprompt) events) ∧
    (∀ key : CppString,
      main env fuel [key]
        = .prompting (initialSession D key) (List.replicate fuel .Reprompt) []) := by
  refine ⟨sessionLoop_eof env fuel, ?_⟩
  intro key
  simp only [main, getline]
  rw [sessionLoop_eof env fuel]
  simp

/-- C10, evaluated on the line `Your name is now ` (the second rename command alone): the
line is non-empty, not `exit` and at most 1000 characters long, and the pass ends in an
uncaught `std::out_of_range`, which terminates the process; it is the only such line. -/
theorem step_aborts_on_bare_bot_rename (env : Env D) (idx : Nat) (s : Session D) :
    botNameCommand ≠ [] ∧ botNameCommand ≠ exitCommand ∧ botNameCommand.length ≤ 1000 ∧
    step env idx s botNameCommand = .abort ∧
    (∀ fuel rest kinds events,
      sessionLoop env (fuel + 1) (botNameCommand :: rest) idx s kinds events
        = .aborted kinds events) ∧
    (∀ line, step env idx s line = .abort ↔ line = botNameCommand) := by
  have habort : step env idx s botNameCommand = .abort :=
    (step_abort_iff env idx s botNameCommand).mpr rfl
  refine ⟨by decide, by decide, by decide, habort, ?_, fun line => step_abort_iff env idx s line⟩
  intro fuel rest kinds events
  simp only [sessionLoop, getline, habort]

end Session

/-! ## Concrete runs for the claims on the session loop -/

/-- Witness of C5: the line `my name is Alex`. -/
theorem step_my_name_is_sets_userName_witness :
    "my name is Alex".toList = userNameCommand ++ "Alex".toList ∧
    (userNameCommand ++ "Alex".toList).length ≤ 1000 ∧
    step sampleEnv 0 sampleSession (userNameCommand ++ "Alex".toList)
      = .cont .RenameUser { sampleSession with userName := "Alex".toList } 0 [] :=
  ⟨by decide, by decide,
    step_my_name_is_sets_userName sampleEnv 0 sampleSession "Alex".toList (by decide)⟩

/-- Counterexample to C6 as stated: the line `my name is time in Italy` is accepted and
contains `time in Italy`, yet the pass is a user rename: the time collaborator is not
called and the transcript gets no entry. -/
theorem time_trigger_after_rename_command_is_rename :
    "my name is time in Italy".toList ≠ [] ∧
    ("my name is time in Italy".toList).length ≤ 1000 ∧
    "my name is time in Italy".toList ≠ exitCommand ∧
    (find "my name is time in Italy".toList timeTrigger).isSome = true ∧
    step sampleEnv 0 sampleSession "my name is time in Italy".toList
      = .cont .RenameUser { sampleSession with userName := "time in Italy".toList } 0 [] := by
  refine ⟨by decide, by decide, by decide, by decide, ?_⟩
  unfold step
  rw [if_neg (by decide), if_neg (by decide), if_neg (by decide), if_pos (by decide)]
  have : substr "my name is time in Italy".toList 11 = some "time in Italy".toList := by
    decide
  rw [this]

/-- Witness of C6 as amended: the line `what is the time in Italy now`. -/
theorem step_time_query_when_no_rename_witness :
    step sampleEnv 0 sampleSession "what is the time in Italy now".toList
      = .cont .TimeQuery
          { sampleSession with
            history := sampleSession.history ++
              [("what is the time in Italy now".toList, (getTimeInItaly sampleEnv 0).reply)] }
          (getTimeInItaly sampleEnv 0).calls (getTimeInItaly sampleEnv 0).events ∧
    (getTimeInItaly sampleEnv 0).reply
      = timeReply sampleEnv
          (match sampleEnv.net 0 with
            | .noHandle => []
            | .performed _ body _ => body) ∧
    attempts (getTimeInItaly sampleEnv 0).events = 0 ∧
    ((sampleEnv.net 0).wasPerformed = true →
      Event.timePerform ∈ (getTimeInItaly sampleEnv 0).events) :=
  step_time_query_when_no_rename sampleEnv 0 sampleSession
    "what is the time in Italy now".toList (by decide) (by decide) (by decide) (by decide)
    (by decide) ⟨"what is the ".toList, " now".toList, by decide⟩

/-- Counterexample to C7 as stated: after the key, a time query and one chat turn, the last
pass is a chat turn, the turn count is 1 and the transcript has 2 entries. -/
theorem turn_count_differs_after_time_query :
    (main sampleEnv 2 timeThenChat).kinds = [.TimeQuery, .ChatTurn] ∧
    (main sampleEnv 2 timeThenChat).session?.map
        (fun s => (s.iterationCount, s.history.length))
      = some (1, 2) := by
  rw [main_timeThenChat]
  exact ⟨rfl, rfl⟩

/-- Witness of C7 as amended: the same run: 1 + 1 = 2. -/
theorem turn_count_is_length_minus_time_queries_witness :
    ∃ s, (main sampleEnv 2 timeThenChat).session? = some s ∧
      (main sampleEnv 2 timeThenChat).kinds.count .ChatTurn < 2147483648 ∧
      s.iterationCount + ((main sampleEnv 2 timeThenChat).kinds.count .TimeQuery : Int)
        = (s.history.length : Int) ∧
      s.iterationCount = ((main sampleEnv 2 timeThenChat).kinds.count .ChatTurn : Int) := by
  have hrun := main_timeThenChat
  have hs : (main sampleEnv 2 timeThenChat).session?
      = some
          { apiKey := "key".toList
            userName := "User".toList
            botName := "Assistant".toList
            history :=
              [("time in Italy".toList, timeFetchError), ("hello".toList, "hi there".toList)]
            iterationCount := 1
            totalResponseTime := 9 } := by
    rw [hrun]; rfl
  have hb : (main sampleEnv 2 timeThenChat).kinds.count .ChatTurn < 2147483648 := by
    rw [hrun]; decide
  exact ⟨_, hs, hb, turn_count_is_length_minus_time_queries sampleEnv 2 timeThenChat _ hs hb⟩

/-- Witness of C8: a line of 1001 characters is rejected, a line of 1000 is not. -/
theorem step_rejects_empty_and_too_long_witness :
    (step sampleEnv 0 sampleSession (List.replicate 1001 (Char.ofNat 97))
        = .cont .Reprompt sampleSession 0 [] ∧
      ∀ fuel rest kinds events,
        sessionLoop sampleEnv (fuel + 1) (List.replicate 1001 (Char.ofNat 97) :: rest) 0
            sampleSession kinds events
          = sessionLoop sampleEnv fuel rest 0 sampleSession (kinds ++ [.Reprompt]) events) ∧
    (∀ s1 calls evs,
      step sampleEnv 0 sampleSession (List.replicate 1000 (Char.ofNat 97))
        ≠ .cont .Reprompt s1 calls evs) :=
  ⟨(step_rejects_empty_and_too_long sampleEnv 0 sampleSession
      (List.replicate 1001 (Char.ofNat 97))).1
      (Or.inr (by rw [List.length_replicate]; omega)),
    (step_rejects_empty_and_too_long sampleEnv 0 sampleSession
      (List.replicate 1000 (Char.ofNat 97))).2 (List.length_replicate _ _)⟩

end ChatClient
